import Mathlib

/-!
Verification development for the bookied-sync reconciliation and grading core
(`bookied_sync/bettingmarketgroup.py` and `bookied_sync/bettingmarketgroupresolve.py`).

Shallow embedding conventions:
* Python dictionaries become association lists; assignment into a dict keeps the
  position of an existing key and appends fresh keys (`dset`); lookups take the
  last binding (`dget`, matching dict-comprehension "later wins" semantics).
* Fallible Python code becomes `Except PyErr`; a Python function that can fall
  off its end returns `Option Bool` inside the `Except` (Python `None`).
* Numeric description values (which Python stores as decimal strings produced
  by `str(...)` and re-parses with `float(...)`) are embedded as rationals
  (`DVal.q`); genuinely non-numeric strings are `DVal.s`, on which `float`
  raises, as in Python.
* Chain state (object-id validity, fetching, the parent event lookup) lives in
  external modules that the core calls into; it is passed as explicit oracle
  parameters.
-/

set_option maxRecDepth 4000

namespace BosSync

/-- Python exception classes that the embedded code can raise. -/
inductive PyErr where
  | keyError
  | valueError
  | assertionError
  | runtimeError
  | typeError
  | attributeError
  | indexError
  | stopIteration
deriving DecidableEq, Repr

instance {ε α : Type} [DecidableEq ε] [DecidableEq α] : DecidableEq (Except ε α)
  | .ok a, .ok b =>
    if h : a = b then isTrue (congrArg Except.ok h)
    else isFalse (fun hh => h (Except.ok.inj hh))
  | .ok _, .error _ => isFalse (fun hh => Except.noConfusion hh)
  | .error _, .ok _ => isFalse (fun hh => Except.noConfusion hh)
  | .error e, .error f =>
    if h : e = f then isTrue (congrArg Except.error h)
    else isFalse (fun hh => h (Except.error.inj hh))

/-- Value stored under one key of a description dictionary: a text string or a
number (Python keeps numbers as decimal strings; see module comment). -/
inductive DVal where
  | s (v : String)
  | q (v : ℚ)
deriving DecidableEq, Repr

/-- A description: ordered list of key/value pairs, as the Python code passes
descriptions around as lists `[[key, value], ...]`. -/
abbrev Description := List (String × DVal)

/-- Value stored under one key of a remote (on-chain) record. -/
inductive RVal where
  | s (v : String)
  | d (v : Description)
deriving DecidableEq, Repr

/-- A remote record as returned by the ledger client: an open key/value map. -/
abbrev Remote := List (String × RVal)

/-- Dictionary lookup: the LAST binding wins, matching the Python dict
comprehension over a pair list. -/
def dget : Description → String → Option DVal
  | [], _ => none
  | kv :: rest, k =>
    match dget rest k with
    | some v => some v
    | none => if kv.1 = k then some kv.2 else none

/-- Key-membership test for a description. -/
def dhas : Description → String → Bool
  | [], _ => false
  | kv :: rest, k => if kv.1 = k then true else dhas rest k

/-- Python dict assignment `d[k] = v`: replace an existing binding in place,
append a fresh key at the end. -/
def dset (d : Description) (k : String) (v : DVal) : Description :=
  if dhas d k then d.map (fun kv => if kv.1 = k then (k, v) else kv)
  else d ++ [(k, v)]

/-- Remote-record lookup (last binding wins). -/
def rget : Remote → String → Option RVal
  | [], _ => none
  | kv :: rest, k =>
    match rget rest k with
    | some v => some v
    | none => if kv.1 = k then some kv.2 else none

/-- Key-membership test for a remote record (Python `k in bmg`). -/
def rhas : Remote → String → Bool
  | [], _ => false
  | kv :: rest, k => if kv.1 = k then true else rhas rest k

/-- Python `r.get(k1, r.get(k2))`. -/
def rget2 (r : Remote) (k1 k2 : String) : Option RVal :=
  match rget r k1 with
  | some v => some v
  | none => rget r k2

/-- Project a remote value to a string, `none` for absent or non-string. -/
def asStr : Option RVal → Option String
  | some (.s v) => some v
  | _ => none

/-- Project a remote value to a description list. -/
def asDescr : Option RVal → Option Description
  | some (.d v) => some v
  | _ => none

/-- Python truthiness of an optional string (None and "" are falsy). -/
def truthyStr : Option String → Bool
  | none => false
  | some s => s != ""

/-- The local lookup state of a `LookupBettingMarketGroup` that the comparator
and reconciliation code reads: the substituted description template
(`substitute_bettingmarket_name` output, computed by the external substitutions
module), the dynamic parameters, status, the resolved parent event id
(`self.event.id`) and the locally known chain id. -/
structure BMG where
  baseDescription : Description
  handicaps : Option (Option Int × Option Int) := none
  overunder : Option ℚ := none
  status : Option String := none
  eventId : Option String := none
  id : Option String := none
deriving DecidableEq, Repr

/-- Python `str(...)` of an optional integer handicap: `str(None) = "None"`
(a non-numeric string on which a later `float` raises). -/
def hstr : Option Int → DVal
  | some n => .q n
  | none => .s "None"

/-- The `description` property of `LookupBettingMarketGroup`: the substituted
base description, then the synthetic keys.  A truthy `handicaps` pair (any
stored 2-element list is truthy in Python) sets `_dynamic = "hc"`, `_hch`,
`_hca`; a truthy `overunder` (nonzero) sets `_dynamic = "ou"` and `_ou` to the
RAW stored threshold (`str(self.get("overunder"))`). -/
def descriptionList (soll : BMG) : Description :=
  let d := soll.baseDescription
  let d := match soll.handicaps with
    | some (h, a) =>
      dset (dset (dset d "_dynamic" (.s "hc")) "_hch" (hstr h)) "_hca" (hstr a)
    | none => d
  match soll.overunder with
  | some q => if q ≠ 0 then dset (dset d "_dynamic" (.s "ou")) "_ou" (.q q) else d
  | none => d

/-- The `description_json` property: dictionary view of `description`. -/
def descriptionJson (soll : BMG) (k : String) : Option DVal :=
  dget (descriptionList soll) k

/-- Modelled from the spec: `valid_object_id` is defined in
`bookied_sync/lookup.py`, which is not under `src/`.  Per the spec it tests
whether an id "resolves to a known object of the expected type"; the chain is
abstracted as an oracle over id strings, and a missing (`None`) or empty id
never resolves. -/
def valid_object_id (oracle : String → Bool) : Option String → Bool
  | none => false
  | some s => if s = "" then false else oracle s

/-- Modelled from the spec: the over/under normalization performed by the
substitutions module (`bookied_sync/substitutions.py`, not under `src/`):
"given a requested threshold `t`, the effective line is `floor(t) + 0.5`". -/
def normalizedLine (t : ℚ) : ℚ := ⌊t⌋ + 1/2

/-- A comparator: `(local, remote) -> bool`, possibly raising. -/
abbrev Cmp := BMG → Remote → Except PyErr Bool

/-- `LookupBettingMarketGroup.cmp_required_keys`: the remote must contain at
least one update-shaped key or at least one create-shaped key (Python `any`),
else `ValueError` is raised. -/
def cmp_required_keys : Cmp := fun _soll ist =>
  let isUpdate := ["betting_market_group_id", "new_description",
                   "new_event_id", "new_rules_id"].any (rhas ist)
  let isCreate := ["description", "event_id", "rules_id"].any (rhas ist)
  if ¬ isUpdate ∧ ¬ isCreate then .error .valueError
  else .ok (isUpdate || isCreate)

/-- `LookupBettingMarketGroup.cmp_status`: vacuously true when the local status
is falsy, else remote status must equal it. -/
def cmp_status : Cmp := fun soll ist =>
  .ok (match soll.status with
    | none => true
    | some s => if s = "" then true else rget ist "status" == some (.s s))

/-- `LookupBettingMarketGroup.cmp_event`: unverifiable parent linkage passes;
a verifiable one must equal the local parent id. -/
def cmp_event (validEvent : String → Bool) : Cmp := fun soll ist =>
  let event_id := asStr (rget2 ist "event_id" "new_event_id")
  let test_event := valid_object_id validEvent event_id
  .ok (!test_event || event_id == soll.eventId)

/-- `LookupBettingMarketGroup.cmp_all_description`: both descriptions truthy
and mutually contained as pair sets.  A remote description that is a truthy
string makes the Python membership test raise `TypeError`. -/
def cmp_all_description : Cmp := fun soll ist =>
  let lookupdescr := descriptionList soll
  match rget2 ist "description" "new_description" with
  | none => .ok false
  | some (.s v) =>
    if v = "" then .ok false
    else if lookupdescr.isEmpty then .ok false
    else .error .typeError
  | some (.d chainsdescr) =>
    .ok (!chainsdescr.isEmpty && !lookupdescr.isEmpty &&
         lookupdescr.all (chainsdescr.contains ·) &&
         chainsdescr.all (lookupdescr.contains ·))

/-- `LookupBettingMarketGroup.cmp_function`: the single `(key, text)` pair of
the local description must appear in the remote description list.  Missing
keys raise `KeyError` as in Python. -/
def cmp_function (key : String) : Cmp := fun soll ist =>
  match descriptionJson soll key with
  | none => .error .keyError
  | some v =>
    match rget ist "description" with
    | none => .error .keyError
    | some (.s _) => .error .typeError
    | some (.d d) => .ok (d.contains (key, v))

/-- Python `float(x)` on an embedded description value: numbers parse,
non-numeric strings raise `ValueError`. -/
def pyFloat : DVal → Except PyErr ℚ
  | .q v => .ok v
  | .s _ => .error .valueError

/-- ASCII lowercase of one character (the discriminator strings compared with
`.lower()` are plain ASCII). -/
def charLower (c : Char) : Char :=
  if 'A' ≤ c ∧ c ≤ 'Z' then Char.ofNat (c.toNat + 32) else c

/-- Python `str.lower()` restricted to ASCII. -/
def strLower (s : String) : String := ⟨s.data.map charLower⟩

/-- Python `.lower()` on a description value; on a number this is an
`AttributeError`. -/
def pyLower : DVal → Except PyErr String
  | .s v => .ok (strLower v)
  | .q _ => .error .attributeError

/-- The `in_range` helper inside `cmp_fuzzy`:
`float(x) >= float(center) - spread and float(x) <= float(center) + spread`. -/
def in_rangeE (spread : ℚ) (x center : DVal) : Except PyErr Bool :=
  match pyFloat x with
  | .error e => .error e
  | .ok xq =>
    match pyFloat center with
    | .error e => .error e
    | .ok cq => .ok (decide (cq - spread ≤ xq) && decide (xq ≤ cq + spread))

/-- `LookupBettingMarketGroup.cmp_fuzzy(spread)` applied to `(soll, ist)`.
The Python function returns `True`, `False`, falls off the end (`None`, the
handicap branch with values outside the spread) or raises; the result type is
therefore `Except PyErr (Option Bool)`. -/
def cmp_fuzzy (spread : ℚ) (soll : BMG) (ist : Remote) : Except PyErr (Option Bool) :=
  match rget ist "description" with
  | none => .error .keyError
  | some (.s _) => .error .typeError
  | some (.d descr) =>
    if ¬ dhas descr "_dynamic" then .ok (some false)
    else
      match descriptionJson soll "_dynamic" with
      | none => .error .keyError
      | some sdynV =>
        match pyLower sdynV with
        | .error e => .error e
        | .ok sdyn =>
          if dget descr "_dynamic" ≠ some (.s sdyn) then .ok (some false)
          else if sdyn = "hc" then
            match descriptionJson soll "_hca", descriptionJson soll "_hch",
                  dget descr "_hca", dget descr "_hch" with
            | some sa, some sh, some ca, some ch =>
              (match in_rangeE spread ch sh with
               | .error e => .error e
               | .ok true =>
                 (match in_rangeE spread ca sa with
                  | .error e => .error e
                  | .ok true => .ok (some true)
                  | .ok false => .ok none)
               | .ok false => .ok none)
            | _, _, _, _ => .error .assertionError
          else if sdyn = "ou" then
            match descriptionJson soll "_ou", dget descr "_ou" with
            | some so, some co =>
              (match in_rangeE spread co so with
               | .error e => .error e
               | .ok r => .ok (some r))
            | _, _ => .error .assertionError
          else .error .runtimeError

/-- Modelled from the spec: the keyed description comparator
(`cmp_descriptions` / `cmp_descriptions_key_lambda`, referenced by the tests
but defined in a module not under `src/`) restricts the exact-description
set-equality check to the keys satisfying a predicate. -/
def cmp_descriptions_pred (p : String → Bool) (soll : BMG) (ist : Remote) :
    Except PyErr Bool :=
  match asDescr (rget2 ist "description" "new_description") with
  | none => .error .keyError
  | some ch =>
    let l := (descriptionList soll).filter (fun kv => p kv.1)
    let c := ch.filter (fun kv => p kv.1)
    .ok (l.all (c.contains ·) && c.all (l.contains ·))

/-- Modelled from the spec: keyed description comparator over an explicit list
of languages/keys. -/
def cmp_descriptions (keys : List String) : BMG → Remote → Except PyErr Bool :=
  cmp_descriptions_pred (fun k => keys.contains k)

/-- A pending proposal: its `proposed_transaction.operations` list of
(operation-type, operation-payload) pairs. -/
structure Proposal where
  operations : List (Nat × Remote)
deriving DecidableEq, Repr

/-- External collaborators of `test_operation_equal`: the chain oracle for
`valid_object_id(_, Event)` and the parent event method `test_operation_equal`
(defined in `bookied_sync/event.py`, outside the core files). -/
structure Env where
  validEvent : String → Bool
  parentTest : Remote → Proposal → Except PyErr Bool

/-- Split a character list at every dot, keeping empty parts, as Python
`s.split(".")` does. -/
def splitDotsAux : List Char → List Char → List String
  | [], acc => [String.mk acc.reverse]
  | c :: cs, acc =>
    if c = '.' then String.mk acc.reverse :: splitDotsAux cs []
    else splitDotsAux cs (c :: acc)

/-- Python `s.split(".")`. -/
def splitDots (s : String) : List String := splitDotsAux s.data []

/-- Digit-string value. -/
def digitsVal (l : List Char) : Nat :=
  l.foldl (fun a c => 10 * a + (c.toNat - 48)) 0

/-- Python `int(s)` for the id components at hand: a nonempty digit string
parses, anything else raises `ValueError` (signs and surrounding whitespace do
not occur in object ids). -/
def parseNat (s : String) : Option Nat :=
  if s.data ≠ [] ∧ s.data.all (fun c => c.isDigit) then some (digitsVal s.data)
  else none

/-- Python first character `s[0]`. -/
def pyFirstChar (s : String) : Option Char := s.data.head?

/-- `int(event_id.split(".")[2])`: `IndexError` when there are fewer than
three dot-separated parts, `ValueError` when the part is not a number. -/
def parseOpIndex (s : String) : Except PyErr Nat :=
  match (splitDots s)[2]? with
  | none => .error .indexError
  | some p =>
    match parseNat p with
    | none => .error .valueError
    | some n => .ok n

/-- Evaluate the full comparator list on one remote record (the Python list
comprehension is eager: it runs the comparators in order, the first raise
propagates). -/
def runCmps (soll : BMG) (ist : Remote) : List Cmp → Except PyErr (List Bool)
  | [] => .ok []
  | f :: fs =>
    match f soll ist with
    | .error e => .error e
    | .ok b =>
      match runCmps soll ist fs with
      | .error e => .error e
      | .ok bs => .ok (b :: bs)

/-- `LookupBettingMarketGroup.test_operation_equal`.  `proposal = none` means
the keyword was not supplied; `some none` a supplied falsy (empty) proposal.
When the remote parent id is truthy but unverifiable, starts with the `"0"`
sentinel and a truthy proposal is supplied, the referenced parent operation is
dereferenced and the parent checked first; a failed parent check returns
`False` before any comparator runs. -/
def test_operation_equal (env : Env) (soll : BMG) (bmg : Remote)
    (proposal : Option (Option Proposal)) (search : List Cmp) : Except PyErr Bool :=
  let event_id := asStr (rget2 bmg "event_id" "new_event_id")
  let test_event := valid_object_id env.validEvent event_id
  let gate : Except PyErr Bool :=
    if truthyStr event_id && !test_event &&
       (pyFirstChar (event_id.getD "") == some '0') && proposal.isSome then
      match proposal with
      | some (some p) =>
        (match parseOpIndex (event_id.getD "") with
         | .error e => .error e
         | .ok opIdx =>
           match p.operations[opIdx]? with
           | none => .error .indexError
           | some parent_op => env.parentTest parent_op.2 p)
      | _ => .ok true
    else .ok true
  match gate with
  | .error e => .error e
  | .ok false => .ok false
  | .ok true =>
    match runCmps soll bmg search with
    | .error e => .error e
    | .ok rs => .ok (rs.all id)

/-- The default comparator set of `test_operation_equal`. -/
def default_search (env : Env) : List Cmp :=
  [cmp_required_keys, cmp_status, cmp_event env.validEvent, cmp_all_description]

/-- The candidate scan inside `find_id`: first remote on which every comparator
is true wins; its `id` is returned (`bmg["id"]`, raising when absent). -/
def find_id_loop (soll : BMG) (search : List Cmp) :
    List Remote → Except PyErr (Option String)
  | [] => .ok none
  | bmg :: rest =>
    match runCmps soll bmg search with
    | .error e => .error e
    | .ok rs =>
      if rs.all id then
        match rget bmg "id" with
        | some (.s i) => .ok (some i)
        | _ => .error .keyError
      else find_id_loop soll search rest

/-- `LookupBettingMarketGroup.find_id`: bail out with "not found" when the
parent id does not resolve, else scan the candidate remote records fetched for
the parent. -/
def find_id (validAny : String → Bool) (parentId : Option String)
    (candidates : List Remote) (soll : BMG) (search : List Cmp) :
    Except PyErr (Option String) :=
  if valid_object_id validAny parentId then find_id_loop soll search candidates
  else .ok none

/-- `LookupBettingMarketGroup.is_synced`: true iff a truthy local id is set and
the record fetched at that id passes `test_operation_equal` with the default
comparator set. -/
def is_synced (env : Env) (fetch : String → Option Remote) (soll : BMG) :
    Except PyErr Bool :=
  match soll.id with
  | none => .ok false
  | some i =>
    if i = "" then .ok false
    else
      match fetch i with
      | none => .error .keyError
      | some bmg => test_operation_equal env soll bmg none (default_search env)

/-- `LookupBettingMarketGroup.set_handicaps`: a falsy (missing or zero) side is
filled with the negation of the other side only when that other side is
truthy. -/
def set_handicaps (home away : Option Int) : Option Int × Option Int :=
  let truthy : Option Int → Bool := fun v =>
    match v with
    | none => false
    | some n => n != 0
  let home2 := if truthy away && !truthy home then some (-(away.getD 0)) else home
  let away2 := if !truthy away && truthy home2 then some (-(home2.getD 0)) else away
  (home2, away2)

/-- The `Handicaps` context class built by `substitute_metric` in
`bettingmarketgroupresolve.py`; its four fields are bound into the metric
template. -/
structure HandicapsScheme where
  home : Int
  away : Int
  home_score : Int
  away_score : Int
deriving DecidableEq, Repr

/-- Field bindings of the `Handicaps` class:
`home_score = int(away) if int(away) >= 0 else 0` and symmetrically. -/
def substitute_metric_handicaps (home away : Int) : HandicapsScheme :=
  { home := home
    away := away
    home_score := if 0 ≤ away then away else 0
    away_score := if 0 ≤ home then home else 0 }

/-- One grading outcome-group: ordered mapping from outcome label to the
boolean-expression template. -/
abbrev OutcomeGroup := List (String × String)

/-- Evaluate every equation of one outcome-group with the (external,
`eval`-based) `evaluate_metric`; the first raise propagates. -/
def evalGroup (ev : String → Except PyErr Bool) :
    OutcomeGroup → Except PyErr (List (String × Bool))
  | [] => .ok []
  | kv :: rest =>
    match ev kv.2 with
    | .error e => .error e
    | .ok b =>
      match evalGroup ev rest with
      | .error e => .error e
      | .ok bs => .ok ((kv.1, b) :: bs)

/-- Python `sum(resolved.values())` over booleans: the number of true labels. -/
def trueCount (rg : List (String × Bool)) : Nat := (rg.filter (·.2)).length

/-- `LookupBettingMarketGroupResolve.resolutions`: pair the outcome-groups with
the market legs in declaration order (`next` on the generator raises when the
legs run out), evaluate each group, and `assert` that exactly one label is
true before emitting `[leg_id, label]`. -/
def resolutions (ev : String → Except PyErr Bool) :
    List OutcomeGroup → List String → Except PyErr (List (String × String))
  | [], _ => .ok []
  | _g :: _gs, [] => .error .stopIteration
  | g :: gs, m :: ms =>
    match evalGroup ev g with
    | .error e => .error e
    | .ok rg =>
      if trueCount rg = 1 then
        match resolutions ev gs ms with
        | .error e => .error e
        | .ok rest => .ok ((rg.filter (·.2)).map (fun kv => (m, kv.1)) ++ rest)
      else .error .assertionError

/-- An on-chain `betting_market_group_resolve` operation payload. -/
structure ResolveOp where
  resolutions : List (String × String)
  betting_market_group_id : String
deriving DecidableEq, Repr

/-- Mutual containment of two pair lists (the two `all(...)` checks). -/
def mutualMem (a b : List (String × String)) : Bool :=
  a.all (b.contains ·) && b.all (a.contains ·)

/-- `LookupBettingMarketGroupResolve.test_operation_equal`. -/
def resolve_test_operation_equal (validBMG : String → Bool) (parentId : Option String)
    (ev : String → Except PyErr Bool) (groups : List OutcomeGroup)
    (markets : List String) (resolve : ResolveOp) : Except PyErr Bool :=
  match resolutions ev groups markets with
  | .error e => .error e
  | .ok lookupresults =>
    .ok (mutualMem lookupresults resolve.resolutions &&
         (!(valid_object_id validBMG (some resolve.betting_market_group_id)) ||
          some resolve.betting_market_group_id == parentId))

/-- The dictionary state of a `LookupBettingMarketGroupResolve` relevant to
`is_synced` (the constructor copies the entries of the parent BMG, including a set
`id`). -/
structure ResolveLookup where
  id : Option String := none
deriving DecidableEq, Repr

/-- `LookupBettingMarketGroupResolve.is_synced`: the source returns `False`
unconditionally (marked `FIXME / TODO` there). -/
def resolve_is_synced (_self : ResolveLookup) : Bool := false

/-! Concrete fixtures, taken from `src/tests/test_overunder_bettingmarketgroup.py`. -/

/-- The on-chain over/under BMG record `test_operation_dict` (line 3.5). -/
def remoteOU35 : Remote :=
  [("id", .s "1.20.218"),
   ("description", .d [("display_name", .s "Over/Under 3.5 pts"),
                       ("en", .s "Over/Under 3.5 pts"),
                       ("sen", .s "Total Points"),
                       ("_dynamic", .s "ou"),
                       ("_ou", .q (7/2))]),
   ("event_id", .s "0.0.0"),
   ("rules_id", .s "1.19.10"),
   ("asset_id", .s "1.3.0"),
   ("status", .s "ongoing")]

/-- The tampered record `t2` of `test_fuzzy_operation_compare`, whose synthetic
keys are replaced by `"FAKE"` strings. -/
def remoteFake : Remote :=
  [("id", .s "1.20.218"),
   ("description", .d [("display_name", .s "Over/Under 3.5 pts"),
                       ("en", .s "Over/Under 3.5 pts"),
                       ("sen", .s "Total Points"),
                       ("_dynamic", .s "FAKE"),
                       ("_ou", .s "FAKE")]),
   ("event_id", .s "0.0.0"),
   ("rules_id", .s "1.19.10"),
   ("asset_id", .s "1.3.0"),
   ("status", .s "ongoing")]

/-- Substituted base description of the over/under lookup fixture. -/
def ouBase : Description :=
  [("display_name", .s "Over/Under 3.5 pts"),
   ("en", .s "Over/Under 3.5 pts"),
   ("sen", .s "Total Points")]

/-- The local over/under lookup with a raw stored threshold `t`. -/
def ouLocal (t : ℚ) : BMG :=
  { baseDescription := ouBase, overunder := some t }

/-- A local lookup with an empty description template and no dynamic data. -/
def emptyBMG : BMG := { baseDescription := [] }

/-- A local lookup whose template carries `_dynamic = "hc"` without the
matching handicap keys. -/
def hcBareBMG : BMG := { baseDescription := [("_dynamic", .s "hc")] }

/-- A local handicap lookup with handicaps `[1, -1]`. -/
def hcBMG : BMG := { baseDescription := [], handicaps := some (some 1, some (-1)) }

/-- An on-chain handicap record with lines far from `hcBMG`. -/
def remoteHC : Remote :=
  [("id", .s "1.20.300"),
   ("description", .d [("en", .s "Handicap (5)"),
                       ("_dynamic", .s "hc"),
                       ("_hch", .q 5),
                       ("_hca", .q (-5))]),
   ("event_id", .s "1.18.2242"),
   ("rules_id", .s "1.19.10"),
   ("status", .s "ongoing")]

/-- Witness environment: nothing resolves on chain and every parent check
fails. -/
def envW : Env :=
  { validEvent := fun _ => false
    parentTest := fun _ _ => .ok false }

/-- A remote BMG record bundled in a proposal, referring to its parent event by
the sentinel id `0.0.1`. -/
def bmgInProposal : Remote :=
  [("description", .d [("en", .s "Moneyline")]),
   ("event_id", .s "0.0.1"),
   ("rules_id", .s "1.19.0"),
   ("asset_id", .s "1.3.0")]

/-- A two-operation proposal whose second operation is the parent event
create. -/
def proposalW : Proposal :=
  { operations := [(61, [("name", .d [("en", .s "Some event")])]),
                   (62, [("name", .d [("en", .s "Atlanta Hawks @ Boston Celtics")])])] }

/-- Evaluator for the witness grading rule: the literal `"T"` is true, all
other equations false. -/
def evW : String → Except PyErr Bool := fun s => .ok (s == "T")

/-- A resolve operation as it would sit on chain for the witness grading
rule. -/
def resolveOpW : ResolveOp :=
  { resolutions := [("1.21.2962", "win")]
    betting_market_group_id := "1.20.218" }

/-- Resolve lookup state carrying the id copied from its parent BMG. -/
def resolveSelfW : ResolveLookup := { id := some "1.20.218" }

/-- A local lookup that only carries the English description text of the 3.5
line. -/
def enLocal : BMG := { baseDescription := [("en", .s "Over/Under 3.5 pts")] }

/-! Dictionary lemmas. -/

theorem dget_map_replace_none (d : Description) (k : String) (v : DVal)
    (h : dhas d k = false) :
    dget (d.map (fun kv => if kv.1 = k then (k, v) else kv)) k = none := by
  induction d with
  | nil => simp [dget]
  | cons kv rest ih =>
    rw [dhas] at h
    by_cases hk : kv.1 = k
    · simp [hk] at h
    · rw [if_neg hk] at h
      simp only [List.map_cons, dget, ih h, if_neg hk]

theorem dget_map_replace (d : Description) (k : String) (v : DVal)
    (h : dhas d k = true) :
    dget (d.map (fun kv => if kv.1 = k then (k, v) else kv)) k = some v := by
  induction d with
  | nil => simp [dhas] at h
  | cons kv rest ih =>
    cases hr : dhas rest k with
    | true =>
      simp only [List.map_cons, dget, ih hr]
    | false =>
      rw [dhas] at h
      by_cases hk : kv.1 = k
      · simp only [List.map_cons, dget, dget_map_replace_none rest k v hr, if_pos hk]
        simp
      · rw [if_neg hk] at h
        rw [hr] at h
        exact absurd h (by simp)

theorem dget_map_replace_ne (d : Description) (k k' : String) (v : DVal)
    (h : k' ≠ k) :
    dget (d.map (fun kv => if kv.1 = k then (k, v) else kv)) k' = dget d k' := by
  induction d with
  | nil => simp
  | cons kv rest ih =>
    simp only [List.map_cons, dget, ih]
    by_cases hk : kv.1 = k
    · rw [if_pos hk]
      have hne : ¬ ((k, v).1 = k') := fun hh => h (hh ▸ rfl)
      have hne2 : ¬ (kv.1 = k') := fun hh => h (hk ▸ hh ▸ rfl)
      simp [hne, hne2]
    · rw [if_neg hk]

theorem dget_append (d e : Description) (k : String) :
    dget (d ++ e) k =
      match dget e k with
      | some v => some v
      | none => dget d k := by
  induction d with
  | nil =>
    show dget e k = _
    cases h : dget e k <;> rfl
  | cons kv rest ih =>
    show (match dget (rest ++ e) k with
          | some v => some v
          | none => if kv.1 = k then some kv.2 else none) = _
    rw [ih]
    cases h : dget e k
    · rw [dget]
    · rfl

theorem dget_dset_self (d : Description) (k : String) (v : DVal) :
    dget (dset d k v) k = some v := by
  rw [dset]
  by_cases h : dhas d k = true
  · rw [if_pos h]
    exact dget_map_replace d k v h
  · rw [if_neg h]
    rw [dget_append]
    simp [dget]

theorem dget_dset_ne (d : Description) (k k' : String) (v : DVal) (h : k' ≠ k) :
    dget (dset d k v) k' = dget d k' := by
  rw [dset]
  by_cases hh : dhas d k = true
  · rw [if_pos hh]
    exact dget_map_replace_ne d k k' v h
  · rw [if_neg hh]
    rw [dget_append]
    simp [dget, Ne.symm h]

theorem dhas_of_dget (d : Description) (k : String) (v : DVal)
    (h : dget d k = some v) : dhas d k = true := by
  induction d with
  | nil => simp [dget] at h
  | cons kv rest ih =>
    rw [dget] at h
    rw [dhas]
    by_cases hk : kv.1 = k
    · simp [hk]
    · rw [if_neg hk]
      cases hr : dget rest k with
      | none => rw [hr] at h; simp [if_neg hk] at h
      | some w => exact ih (by rw [hr] at h ⊢; exact h)

/-! The description of an over/under lookup. -/

theorem descriptionList_ou (soll : BMG) (t : ℚ) (hou : soll.overunder = some t)
    (ht : t ≠ 0) (hhc : soll.handicaps = none) :
    descriptionList soll =
      dset (dset soll.baseDescription "_dynamic" (.s "ou")) "_ou" (.q t) := by
  rw [descriptionList, hhc, hou]
  simp [ht]

theorem descriptionJson_ou_dynamic (soll : BMG) (t : ℚ) (hou : soll.overunder = some t)
    (ht : t ≠ 0) (hhc : soll.handicaps = none) :
    descriptionJson soll "_dynamic" = some (.s "ou") := by
  rw [descriptionJson, descriptionList_ou soll t hou ht hhc,
    dget_dset_ne _ _ _ _ (by decide), dget_dset_self]

theorem descriptionJson_ou_raw (soll : BMG) (t : ℚ) (hou : soll.overunder = some t)
    (ht : t ≠ 0) (hhc : soll.handicaps = none) :
    descriptionJson soll "_ou" = some (.q t) := by
  rw [descriptionJson, descriptionList_ou soll t hou ht hhc, dget_dset_self]

/-! Claim theorems. -/

/-- C3 counterexample: at handicaps `home = -1`, `away = 1` the code binds
`handicaps.home_score` to `1`, while the claimed formula `max(0, -away)`
yields `0`: the claim is false on this input. -/
theorem substitute_metric_handicaps_claim_false :
    (substitute_metric_handicaps (-1) 1).home_score = 1
    ∧ ¬ ((substitute_metric_handicaps (-1) 1).home_score = max 0 (-(1 : Int))) := by
  constructor
  · rfl
  · intro h
    simp [substitute_metric_handicaps] at h

/-- C3 (amended): `substitute_metric` binds `handicaps.home_score` to
`max(0, away_handicap)` — the opponent handicap itself when non-negative,
zero otherwise — and symmetrically `handicaps.away_score = max(0,
home_handicap)`; the negation claimed by the spec is not applied. -/
theorem substitute_metric_handicaps_opponent (home away : Int) :
    (substitute_metric_handicaps home away).home_score = max 0 away
    ∧ (substitute_metric_handicaps home away).away_score = max 0 home := by
  constructor <;> simp only [substitute_metric_handicaps] <;> split <;> omega

/-- C9 counterexample: calling `set_handicaps` with only `home = 0` leaves the
away side unset (`None`), because `0` is falsy in Python; the claim demanded
`away = -0 = 0`. -/
theorem set_handicaps_zero_counterexample :
    set_handicaps (some 0) none = (some 0, none)
    ∧ set_handicaps (some 0) none ≠ (some 0, some (-(0 : Int))) := by
  constructor
  · rfl
  · intro h
    simp [set_handicaps] at h

/-- C9 (amended): when exactly one side is given with a NONZERO value, the
other side is set to its negation; a given value of zero is falsy, so the
other side stays unset. -/
theorem set_handicaps_mirror (h : Int) (hne : h ≠ 0) :
    set_handicaps (some h) none = (some h, some (-h))
    ∧ set_handicaps none (some h) = (some (-h), some h)
    ∧ set_handicaps (some 0) none = (some 0, none)
    ∧ set_handicaps none (some 0) = (none, some 0) := by
  have hb : (h != 0) = true := by simpa using hne
  refine ⟨?_, ?_, by rfl, by rfl⟩ <;> simp [set_handicaps, hb]

/-- C9 witness: the amended statement at the concrete nonzero input 2. -/
theorem set_handicaps_mirror_witness :
    (2 : Int) ≠ 0 ∧ set_handicaps (some 2) none = (some 2, some (-2)) :=
  ⟨by decide, (set_handicaps_mirror 2 (by decide)).1⟩

/-- C1: the `resolutions` property evaluates every outcome equation of an
outcome-group and requires exactly one true label: a head group whose
evaluated true-count differs from one aborts with the assertion error, and
any successfully returned resolution list certifies that every group had
exactly one true label. -/
theorem resolutions_exactly_one (ev : String → Except PyErr Bool) :
    (∀ g gs m ms rg, evalGroup ev g = .ok rg → trueCount rg ≠ 1 →
      resolutions ev (g :: gs) (m :: ms) = .error .assertionError)
    ∧ (∀ groups markets ret, resolutions ev groups markets = .ok ret →
      ∀ gr ∈ groups, ∃ rg, evalGroup ev gr = .ok rg ∧ trueCount rg = 1) := by
  constructor
  · intro g gs m ms rg hev hcnt
    simp [resolutions, hev, hcnt]
  · intro groups
    induction groups with
    | nil => simp
    | cons g gs ih =>
      intro markets ret hres gr hmem
      cases markets with
      | nil => simp [resolutions] at hres
      | cons m ms =>
        cases hev : evalGroup ev g with
        | error e => simp [resolutions, hev] at hres
        | ok rg =>
          simp only [resolutions, hev] at hres
          by_cases hc : trueCount rg = 1
          · rw [if_pos hc] at hres
            rcases List.mem_cons.mp hmem with rfl | hmem2
            · exact ⟨rg, hev, hc⟩
            · cases hrest : resolutions ev gs ms with
              | error e => rw [hrest] at hres; exact absurd hres (by simp)
              | ok rest => exact ih ms rest hrest gr hmem2
          · rw [if_neg hc] at hres
            exact absurd hres (by simp)

/-- C1 witness: a one-group moneyline rule in which two labels evaluate true
aborts with the assertion error. -/
theorem resolutions_exactly_one_witness :
    resolutions evW [[("win", "T"), ("not_win", "T")]] ["1.21.2962"]
      = .error .assertionError :=
  (resolutions_exactly_one evW).1 [("win", "T"), ("not_win", "T")] [] "1.21.2962" []
    [("win", true), ("not_win", true)] (by decide) (by decide)

/-- C6 counterexample: a remote record holding only a `description` key has
neither the full create-shaped key set (it lacks `event_id` and `rules_id`)
nor any update-shaped key, yet `cmp_required_keys` accepts it with `True`
instead of raising: the any-key rule, not the full-key-set rule, is what the
code implements. -/
theorem cmp_required_keys_partial_create :
    cmp_required_keys emptyBMG [("description", RVal.d [])] = .ok true
    ∧ rhas [("description", RVal.d [])] "event_id" = false
    ∧ rhas [("description", RVal.d [])] "rules_id" = false
    ∧ rhas [("description", RVal.d [])] "betting_market_group_id" = false
    ∧ rhas [("description", RVal.d [])] "new_description" = false
    ∧ rhas [("description", RVal.d [])] "new_event_id" = false
    ∧ rhas [("description", RVal.d [])] "new_rules_id" = false := by decide

/-- C6 (amended): `cmp_required_keys` returns true iff the remote carries AT
LEAST ONE create-shaped key (`description`, `event_id`, `rules_id`) or at
least one update-shaped key, and raises `ValueError` exactly when it carries
none of them; consequently `test_operation_equal` with the default comparator
set, and `find_id` with a comparator set containing `cmp_required_keys`,
raise on a keyless record. -/
theorem cmp_required_keys_any (soll : BMG) (ist : Remote) :
    (cmp_required_keys soll ist = .ok true ↔
      (["betting_market_group_id", "new_description", "new_event_id",
        "new_rules_id"].any (rhas ist)
       || ["description", "event_id", "rules_id"].any (rhas ist)) = true)
    ∧ (cmp_required_keys soll ist = .error .valueError ↔
      (["betting_market_group_id", "new_description", "new_event_id",
        "new_rules_id"].any (rhas ist)
       || ["description", "event_id", "rules_id"].any (rhas ist)) = false)
    ∧ (∀ (env : Env) (s2 : BMG),
        test_operation_equal env s2 [] none (default_search env) = .error .valueError)
    ∧ (∀ (validAny : String → Bool) (pid : String) (s3 : BMG),
        valid_object_id validAny (some pid) = true →
        find_id validAny (some pid) [[]] s3 [cmp_required_keys] = .error .valueError) := by
  refine ⟨?_, ?_, ?_, ?_⟩
  · cases hU : (["betting_market_group_id", "new_description", "new_event_id",
        "new_rules_id"].any (rhas ist)) <;>
      cases hC : (["description", "event_id", "rules_id"].any (rhas ist)) <;>
      simp [cmp_required_keys, hU, hC]
  · cases hU : (["betting_market_group_id", "new_description", "new_event_id",
        "new_rules_id"].any (rhas ist)) <;>
      cases hC : (["description", "event_id", "rules_id"].any (rhas ist)) <;>
      simp [cmp_required_keys, hU, hC]
  · intro env s2
    simp [test_operation_equal, default_search, runCmps, cmp_required_keys,
      rget2, rget, asStr, truthyStr, rhas]
  · intro validAny pid s3 hval
    simp [find_id, hval, find_id_loop, runCmps, cmp_required_keys, rhas]

/-- C6 witness: the amended statement exercised on a create-only record, on an
empty record through `test_operation_equal`, and on an empty candidate through
`find_id` under a resolvable parent. -/
theorem cmp_required_keys_any_witness :
    cmp_required_keys emptyBMG [("description", RVal.d []),
      ("new_description", RVal.d [])] = .ok true
    ∧ test_operation_equal envW emptyBMG [] none (default_search envW)
        = .error .valueError
    ∧ find_id (fun _ => true) (some "1.18.2242") [[]] emptyBMG [cmp_required_keys]
        = .error .valueError :=
  ⟨(cmp_required_keys_any emptyBMG _).1.mpr (by decide),
   (cmp_required_keys_any emptyBMG []).2.2.1 envW emptyBMG,
   (cmp_required_keys_any emptyBMG []).2.2.2 (fun _ => true) "1.18.2242" emptyBMG
     (by decide)⟩

/-- C4: when the remote parent event id is an unverifiable sentinel reference
`0...` into a supplied proposal, `test_operation_equal` dereferences operation
`N` of the proposal and checks the parent first; a failed parent check makes
the whole comparison false for EVERY comparator set. -/
theorem test_operation_equal_parent_gate
    (env : Env) (soll : BMG) (bmg : Remote) (p : Proposal) (search : List Cmp)
    (s : String) (n : Nat) (op : Nat × Remote)
    (hid : asStr (rget2 bmg "event_id" "new_event_id") = some s)
    (hne : s ≠ "")
    (h0 : pyFirstChar s = some '0')
    (hvalid : env.validEvent s = false)
    (hidx : parseOpIndex s = .ok n)
    (hop : p.operations[n]? = some op)
    (hparent : env.parentTest op.2 p = .ok false) :
    test_operation_equal env soll bmg (some (some p)) search = .ok false := by
  simp [test_operation_equal, hid, truthyStr, valid_object_id, hne, hvalid, h0,
    hidx, hop, hparent]

/-- C4 witness: a BMG create bundled in a two-operation proposal with parent
reference `0.0.1`; the parent check fails, so the comparison is false even
though the supplied comparator set would accept everything. -/
theorem test_operation_equal_parent_gate_witness :
    test_operation_equal envW emptyBMG bmgInProposal (some (some proposalW))
      [fun _ _ => .ok true] = .ok false :=
  test_operation_equal_parent_gate envW emptyBMG bmgInProposal proposalW
    [fun _ _ => .ok true] "0.0.1" 1
    (62, [("name", RVal.d [("en", DVal.s "Atlanta Hawks @ Boston Celtics")])])
    (by decide) (by decide) (by decide) (by decide) (by decide) (by decide) (by decide)

/-- Scan helper: when every candidate evaluates all comparators without raise
and with at least one false, the scan finds nothing (and does not raise). -/
theorem find_id_loop_nomatch (soll : BMG) (search : List Cmp) :
    ∀ cands, (∀ c ∈ cands, ∃ rs, runCmps soll c search = .ok rs ∧ rs.all id = false) →
    find_id_loop soll search cands = .ok none := by
  intro cands
  induction cands with
  | nil => intro _; rfl
  | cons c rest ih =>
    intro h
    obtain ⟨rs, hrs, hall⟩ := h c (List.mem_cons_self c rest)
    simp only [find_id_loop, hrs, hall]
    exact ih (fun c2 hm => h c2 (List.mem_cons_of_mem _ hm))

/-- Scan helper: the first candidate on which every comparator is true wins,
and its id is returned. -/
theorem find_id_loop_first (soll : BMG) (search : List Cmp) :
    ∀ pre c post rs i,
    (∀ c2 ∈ pre, ∃ rs2, runCmps soll c2 search = .ok rs2 ∧ rs2.all id = false) →
    runCmps soll c search = .ok rs → rs.all id = true →
    rget c "id" = some (.s i) →
    find_id_loop soll search (pre ++ c :: post) = .ok (some i) := by
  intro pre
  induction pre with
  | nil =>
    intro c post rs i _ hrs hall hid
    simp only [List.nil_append, find_id_loop, hrs, hall, if_true, hid]
  | cons c0 rest ih =>
    intro c post rs i hpre hrs hall hid
    obtain ⟨rs0, hrs0, hall0⟩ := hpre c0 (List.mem_cons_self c0 rest)
    simp only [List.cons_append, find_id_loop, hrs0, hall0]
    exact ih c post rs i (fun c2 hm => hpre c2 (List.mem_cons_of_mem _ hm))
      hrs hall hid

/-- C5: `find_id` returns the absent result (never raising) when the parent
does not resolve to a valid object id, or when every candidate (including the
empty collection) evaluates the comparator set to a non-match; otherwise it
returns the id of the first candidate, in the given order, on which every
comparator returns true. -/
theorem find_id_spec (validAny : String → Bool) (parentId : Option String)
    (soll : BMG) (search : List Cmp) :
    (valid_object_id validAny parentId = false →
      ∀ cands, find_id validAny parentId cands soll search = .ok none)
    ∧ (∀ cands,
        (∀ c ∈ cands, ∃ rs, runCmps soll c search = .ok rs ∧ rs.all id = false) →
        find_id validAny parentId cands soll search = .ok none)
    ∧ (∀ pre c post rs i,
        valid_object_id validAny parentId = true →
        (∀ c2 ∈ pre, ∃ rs2, runCmps soll c2 search = .ok rs2 ∧ rs2.all id = false) →
        runCmps soll c search = .ok rs → rs.all id = true →
        rget c "id" = some (.s i) →
        find_id validAny parentId (pre ++ c :: post) soll search = .ok (some i)) := by
  refine ⟨?_, ?_, ?_⟩
  · intro hval cands
    simp [find_id, hval]
  · intro cands h
    cases hval : valid_object_id validAny parentId
    · simp [find_id, hval]
    · simp only [find_id, hval, if_true]
      exact find_id_loop_nomatch soll search cands h
  · intro pre c post rs i hval hpre hrs hall hid
    simp only [find_id, hval, if_true]
    exact find_id_loop_first soll search pre c post rs i hpre hrs hall hid

/-- C5 witness: the 3.5-line fixture is found by its English description under
a resolvable parent, and an unresolvable (`None`) parent yields the absent
result over the same candidates without raising. -/
theorem find_id_spec_witness :
    find_id (fun s => s == "1.18.2242") (some "1.18.2242") [remoteOU35] enLocal
      [cmp_function "en"] = .ok (some "1.20.218")
    ∧ find_id (fun s => s == "1.18.2242") none [remoteOU35] enLocal
      [cmp_function "en"] = .ok none :=
  ⟨(find_id_spec (fun s => s == "1.18.2242") (some "1.18.2242") enLocal
      [cmp_function "en"]).2.2 [] remoteOU35 [] [true] "1.20.218"
      (by decide) (by simp) (by decide) (by decide) (by decide),
   (find_id_spec (fun s => s == "1.18.2242") none enLocal
      [cmp_function "en"]).1 (by decide) [remoteOU35]⟩

/-- C7: the method `is_synced` of the resolve lookup is an unimplemented stub (the source
marks it `FIXME / TODO`) returning `False` unconditionally, even in a state
where the entity carries a known truthy id and the on-chain resolve operation
satisfies `test_operation_equal`; the claimed contract would give `True`
there. -/
theorem resolve_is_synced_stub :
    resolve_test_operation_equal (fun _ => true) (some "1.20.218") evW
      [[("win", "T"), ("not_win", "F")]] ["1.21.2962"] resolveOpW = .ok true
    ∧ resolveSelfW.id = some "1.20.218"
    ∧ truthyStr resolveSelfW.id = true
    ∧ resolve_is_synced resolveSelfW = false := by decide

/-- C8: the keyed description comparator returns true iff the local and remote
description pairs restricted to the given key list agree (mutual containment
of the restricted pair sets). -/
theorem cmp_descriptions_restricted (keys : List String) (soll : BMG) (ist : Remote)
    (ch : Description)
    (hch : asDescr (rget2 ist "description" "new_description") = some ch) :
    cmp_descriptions keys soll ist = .ok true ↔
      ((∀ kv ∈ descriptionList soll, kv.1 ∈ keys → kv ∈ ch)
       ∧ (∀ kv ∈ ch, kv.1 ∈ keys → kv ∈ descriptionList soll)) := by
  have hbody : cmp_descriptions keys soll ist =
      .ok ((((descriptionList soll).filter (fun kv => keys.contains kv.1)).all
             (fun kv => (ch.filter (fun kv => keys.contains kv.1)).contains kv)) &&
           ((ch.filter (fun kv => keys.contains kv.1)).all
             (fun kv => ((descriptionList soll).filter
               (fun kv => keys.contains kv.1)).contains kv))) := by
    rw [cmp_descriptions, cmp_descriptions_pred, hch]
  rw [hbody, Except.ok.injEq, Bool.and_eq_true, List.all_eq_true, List.all_eq_true]
  constructor
  · rintro ⟨hb1, hb2⟩
    refine ⟨fun kv hm hk => ?_, fun kv hm hk => ?_⟩
    · exact (List.mem_filter.mp (List.elem_iff.mp
        (hb1 kv (List.mem_filter.mpr ⟨hm, List.elem_iff.mpr hk⟩)))).1
    · exact (List.mem_filter.mp (List.elem_iff.mp
        (hb2 kv (List.mem_filter.mpr ⟨hm, List.elem_iff.mpr hk⟩)))).1
  · rintro ⟨h1, h2⟩
    constructor
    · intro kv hm
      rcases List.mem_filter.mp hm with ⟨hmem, hkey⟩
      exact List.elem_iff.mpr
        (List.mem_filter.mpr ⟨h1 kv hmem (List.elem_iff.mp hkey), hkey⟩)
    · intro kv hm
      rcases List.mem_filter.mp hm with ⟨hmem, hkey⟩
      exact List.elem_iff.mpr
        (List.mem_filter.mpr ⟨h2 kv hmem (List.elem_iff.mp hkey), hkey⟩)

/-- C8 witness: restricted to `en` and `display_name` the tampered fixture
`t2` (fake synthetic keys) still agrees with the 3.5-line lookup, although the
full descriptions differ. -/
theorem cmp_descriptions_restricted_witness :
    cmp_descriptions ["en", "display_name"] (ouLocal (7/2)) remoteFake = .ok true
    ∧ cmp_all_description (ouLocal (7/2)) remoteFake = .ok false := by
  have hq : ((7:ℚ)/2) ≠ 0 := by norm_num
  have hdl : descriptionList (ouLocal (7/2)) =
      [("display_name", .s "Over/Under 3.5 pts"), ("en", .s "Over/Under 3.5 pts"),
       ("sen", .s "Total Points"), ("_dynamic", .s "ou"), ("_ou", .q (7/2))] := by
    simp [descriptionList, ouLocal, ouBase, hq, dset, dhas]
  constructor
  · refine (cmp_descriptions_restricted ["en", "display_name"] (ouLocal (7/2))
      remoteFake
      [("display_name", .s "Over/Under 3.5 pts"), ("en", .s "Over/Under 3.5 pts"),
       ("sen", .s "Total Points"), ("_dynamic", .s "FAKE"), ("_ou", .s "FAKE")]
      (by rfl)).mpr ?_
    rw [hdl]
    constructor
    · intro kv hm
      simp only [List.mem_cons, List.not_mem_nil, or_false] at hm
      rcases hm with rfl | rfl | rfl | rfl | rfl <;> intro hk <;> first
        | exact absurd hk (by decide)
        | decide
    · intro kv hm
      simp only [List.mem_cons, List.not_mem_nil, or_false] at hm
      rcases hm with rfl | rfl | rfl | rfl | rfl <;> intro hk <;> first
        | exact absurd hk (by decide)
        | decide
  · simp only [cmp_all_description, hdl]
    decide

/-- Shared evaluation of `in_range` on two numeric values: the symmetric
inclusive band `|x - center| <= spread`. -/
theorem in_rangeE_abs (spread x c : ℚ) :
    in_rangeE spread (.q x) (.q c) = .ok (decide (|x - c| ≤ spread)) := by
  simp only [in_rangeE, pyFloat]
  congr 1
  rw [← Bool.decide_and, decide_eq_decide, abs_sub_le_iff]
  constructor
  · rintro ⟨h1, h2⟩
    exact ⟨by linarith, by linarith⟩
  · rintro ⟨h1, h2⟩
    exact ⟨by linarith, by linarith⟩

/-- C2 counterexample: against the remote 3.5 line, a raw local input of 5.0
does NOT match at spread 0.51 (the claim says it matches); the same holds for
the normalized reading 5.5, so the claimed example fails under either
interpretation. -/
theorem cmp_fuzzy_spread051_no_match :
    cmp_fuzzy (51/100) (ouLocal 5) remoteOU35 = .ok (some false)
    ∧ cmp_fuzzy (51/100) (ouLocal (11/2)) remoteOU35 = .ok (some false) := by
  have hl : strLower "ou" = "ou" := by decide
  have hq : ((11:ℚ)/2) ≠ 0 := by norm_num
  have h1 : ¬ ((5:ℚ) ≤ 7/2 + 51/100) := by norm_num
  have h2 : ¬ ((11:ℚ)/2 ≤ 7/2 + 51/100) := by norm_num
  constructor <;>
    simp +decide [cmp_fuzzy, ouLocal, ouBase, remoteOU35, rget, dget, dhas, dset,
      descriptionJson, descriptionList, pyLower, pyFloat, in_rangeE, hstr, hl,
      hq, h1, h2]

/-- C2 (amended): the over/under normalization `floor(t) + 0.5` applies to the
DISPLAYED line produced by the substitutions module, but the `_ou` value that
`cmp_fuzzy` compares is the raw stored threshold; the comparator matches iff
the raw lines differ by at most the spread (symmetric inclusive band), so
against the remote 3.5 line a raw 4.9 and a raw 5.0 both fail at spread 0,
5.0 also fails at spread 0.51, and it first matches at spread 1.5. -/
theorem cmp_fuzzy_raw_line (spread t c : ℚ) (soll : BMG) (ist : Remote)
    (d : Description)
    (hou : soll.overunder = some t) (ht : t ≠ 0) (hhc : soll.handicaps = none)
    (hd : rget ist "description" = some (.d d))
    (hdyn : dget d "_dynamic" = some (.s "ou"))
    (hco : dget d "_ou" = some (.q c)) :
    descriptionJson soll "_ou" = some (.q t)
    ∧ cmp_fuzzy spread soll ist = .ok (some (decide (|c - t| ≤ spread)))
    ∧ normalizedLine (49/10) = 9/2
    ∧ normalizedLine 5 = 11/2 := by
  have hraw := descriptionJson_ou_raw soll t hou ht hhc
  have hdynj := descriptionJson_ou_dynamic soll t hou ht hhc
  have hdh : dhas d "_dynamic" = true := dhas_of_dget d _ _ hdyn
  have hl : strLower "ou" = "ou" := by decide
  refine ⟨hraw, ?_, ?_, ?_⟩
  · simp only [cmp_fuzzy, hd, hdh, Bool.not_true, hdynj, pyLower, hl, hdyn,
      hraw, hco, in_rangeE_abs]
    simp
  · have h4 : ⌊(49:ℚ)/10⌋ = 4 := by
      rw [Int.floor_eq_iff]
      norm_num
    rw [normalizedLine, h4]
    norm_num
  · have h5 : ⌊(5:ℚ)⌋ = 5 := by
      rw [Int.floor_eq_iff]
      norm_num
    rw [normalizedLine, h5]
    norm_num

/-- C2 witness: the amended statement at raw line 5 against the remote 3.5
fixture with spread 1.5: the compared value is the raw 5, and the match
succeeds exactly at the inclusive boundary. -/
theorem cmp_fuzzy_raw_line_witness :
    descriptionJson (ouLocal 5) "_ou" = some (.q 5)
    ∧ cmp_fuzzy (3/2) (ouLocal 5) remoteOU35
        = .ok (some (decide (|(7:ℚ)/2 - 5| ≤ 3/2)))
    ∧ (|(7:ℚ)/2 - 5| ≤ 3/2) := by
  have h := cmp_fuzzy_raw_line (3/2) 5 (7/2) (ouLocal 5) remoteOU35
    [("display_name", .s "Over/Under 3.5 pts"), ("en", .s "Over/Under 3.5 pts"),
     ("sen", .s "Total Points"), ("_dynamic", .s "ou"), ("_ou", .q (7/2))]
    (by rfl) (by norm_num) (by rfl) (by rfl) (by rfl) (by rfl)
  exact ⟨h.1, h.2.1, by rw [abs_sub_le_iff]; constructor <;> norm_num⟩

/-- C10: `cmp_fuzzy` is total boolean only for dynamically parameterized
locals: against a remote description carrying `_dynamic`, a local without
`_dynamic` raises `KeyError`; a local claiming `hc` without the `_hca` key
trips the assertion; and a handicap pair outside the spread falls off the end
of the Python function, yielding `None` rather than `False`. -/
theorem cmp_fuzzy_partiality :
    (∀ (spread : ℚ) (soll : BMG) (ist : Remote) (d : Description),
      rget ist "description" = some (.d d) → dhas d "_dynamic" = true →
      descriptionJson soll "_dynamic" = none →
      cmp_fuzzy spread soll ist = .error .keyError)
    ∧ (∀ (spread : ℚ) (soll : BMG) (ist : Remote) (d : Description),
      rget ist "description" = some (.d d) →
      dget d "_dynamic" = some (.s "hc") →
      descriptionJson soll "_dynamic" = some (.s "hc") →
      descriptionJson soll "_hca" = none →
      cmp_fuzzy spread soll ist = .error .assertionError)
    ∧ (∀ (spread : ℚ) (soll : BMG) (ist : Remote) (d : Description) (h a x1 x2 : ℚ),
      rget ist "description" = some (.d d) →
      dget d "_dynamic" = some (.s "hc") →
      descriptionJson soll "_dynamic" = some (.s "hc") →
      descriptionJson soll "_hch" = some (.q h) →
      descriptionJson soll "_hca" = some (.q a) →
      dget d "_hch" = some (.q x1) → dget d "_hca" = some (.q x2) →
      ¬ (|x1 - h| ≤ spread ∧ |x2 - a| ≤ spread) →
      cmp_fuzzy spread soll ist = .ok none) := by
  have hl : strLower "hc" = "hc" := by decide
  refine ⟨?_, ?_, ?_⟩
  · intro spread soll ist d hd hdh hnone
    simp only [cmp_fuzzy, hd, hdh, Bool.not_true, hnone]
    simp
  · intro spread soll ist d hd hdyn hsd hsa
    have hdh : dhas d "_dynamic" = true := dhas_of_dget d _ _ hdyn
    simp only [cmp_fuzzy, hd, hdh, Bool.not_true, hsd, pyLower, hl, hdyn, hsa]
    simp
  · intro spread soll ist d h a x1 x2 hd hdyn hsd hsh hsa hch hca hout
    have hdh : dhas d "_dynamic" = true := dhas_of_dget d _ _ hdyn
    simp only [cmp_fuzzy, hd, hdh, Bool.not_true, hsd, pyLower, hl, hdyn, hsa,
      hsh, hch, hca, in_rangeE_abs]
    by_cases h1 : |x1 - h| ≤ spread
    · have h2 : ¬ |x2 - a| ≤ spread := fun hh => hout ⟨h1, hh⟩
      simp [h1, h2]
    · simp [h1]

/-- C10 witness: the three partial behaviors at concrete fixtures: a
non-dynamic local against the 3.5-line remote raises `KeyError`; a local with
a bare `hc` discriminator raises the assertion; handicaps `[1, -1]` against a
`[5, -5]` remote at spread 1 yield `None`. -/
theorem cmp_fuzzy_partiality_witness :
    cmp_fuzzy 1 emptyBMG remoteOU35 = .error .keyError
    ∧ cmp_fuzzy 1 hcBareBMG remoteHC = .error .assertionError
    ∧ cmp_fuzzy 1 hcBMG remoteHC = .ok none :=
  ⟨cmp_fuzzy_partiality.1 1 emptyBMG remoteOU35
    [("display_name", .s "Over/Under 3.5 pts"), ("en", .s "Over/Under 3.5 pts"),
     ("sen", .s "Total Points"), ("_dynamic", .s "ou"), ("_ou", .q (7/2))]
    (by rfl) (by rfl) (by rfl),
   cmp_fuzzy_partiality.2.1 1 hcBareBMG remoteHC
    [("en", .s "Handicap (5)"), ("_dynamic", .s "hc"), ("_hch", .q 5),
     ("_hca", .q (-5))]
    (by rfl) (by rfl) (by rfl) (by rfl),
   cmp_fuzzy_partiality.2.2 1 hcBMG remoteHC
    [("en", .s "Handicap (5)"), ("_dynamic", .s "hc"), ("_hch", .q 5),
     ("_hca", .q (-5))]
    (((1:Int)):ℚ) (((-1:Int)):ℚ) 5 (-5)
    (by rfl) (by rfl) (by rfl) (by rfl) (by rfl) (by rfl) (by rfl)
    (by push_cast; intro hc2; rcases hc2 with ⟨hc3, _⟩; rw [abs_sub_le_iff] at hc3; linarith [hc3.1])⟩

end BosSync
